import Mathlib

/-
  Verification of the async event-controller / channel core of the tooltool
  repository.

  Embedded source files:
  - src/iterator/generator/type.ts      (AsyncEvent)
  - src/iterator/channel/source.ts      (createAsyncSource: subscribe, asyncIterator, result)
  - src/iterator/channel/create.ts      (createAsyncChannel: push with try/catch; unnamed/part_015)
  - src/iterator/generator/controller.ts (createGeneratorController: push without try/catch,
                                          entries, toAsyncGenerator)

  The host is single-threaded and cooperative; all sink calls and callback
  invocations are synchronous, so the state of a channel is a deterministic
  fold of the API calls made on it.  Mutable JS state (the events array, the
  waiters array, the per-subscriber position, the result promise) is modelled
  by explicit state passing; a JS exception is modelled by Except / Option.
-/

deriving instance DecidableEq for Except

namespace Tooltool

/-- AsyncEvent from src/iterator/generator/type.ts: a tagged union of
yield / return / throw events. -/
inductive AsyncEvent (Y R E : Type) where
  | yieldEv : Y → AsyncEvent Y R E
  | returnEv : R → AsyncEvent Y R E
  | throwEv : E → AsyncEvent Y R E
deriving DecidableEq, Repr

variable {Y R E : Type}

/-- An event is terminal when its type is return or throw. -/
def isTerminalEv : AsyncEvent Y R E → Bool
  | .yieldEv _ => false
  | .returnEv _ => true
  | .throwEv _ => true

/-- The channel push of create.ts computes ignore_err as (event.type === 'return'). -/
def isReturnEv : AsyncEvent Y R E → Bool
  | .returnEv _ => true
  | _ => false

/-! ## Iterator semantics

The async-iterator body in source.ts (lines 43-62) and entries() in
controller.ts (lines 86-108) both run

    let position = 0;
    while true:
      while position < events.length:
        event := events[position]; position++
        yield / return / throw by event.type
      await new Promise(resolve => waiters.push(resolve))

The cursor only moves forward and the events array is append-only, so the
values the consumer observes are a function of the part of the log it has
scanned.  iterate computes, for a log, the yielded values (in order, from
position 0) together with the terminal outcome: some (Except.ok r) when a
return event is reached, some (Except.error e) when a throw event is
reached, and none when the cursor reaches the end of the log without a
terminal event (the consumer is then suspended in the waiters list). -/
def iterate : List (AsyncEvent Y R E) → List Y × Option (Except E R)
  | [] => ([], none)
  | .yieldEv v :: rest => (v :: (iterate rest).1, (iterate rest).2)
  | .returnEv v :: _ => ([], some (Except.ok v))
  | .throwEv e :: _ => ([], some (Except.error e))

/-- A consumer interleaved with production: the log arrives in batches
(the chunk available when the consumer first drains, then one chunk per
wake-up; the iterator re-registers a fresh resolve in waiters on every
suspension, so it is woken by every append).  The consumer drains each
batch from its own cursor; once a terminal event is reached the generator
has returned and later batches are not read. -/
def consumeBatches : List (List (AsyncEvent Y R E)) → List Y × Option (Except E R)
  | [] => ([], none)
  | b :: bs =>
      match (iterate b).2 with
      | some o => ((iterate b).1, some o)
      | none => ((iterate b).1 ++ (consumeBatches bs).1, (consumeBatches bs).2)

/-! ## Channel state machine (createAsyncChannel + createAsyncSource) -/

/-- State of one subscribe callback (source.ts lines 21-33): the closure's
position counter, and the events the callback has been invoked with so far,
in invocation order.  cb models the callback's behaviour: cb e = some err
means the callback throws err when invoked with e; cb e = none means it
returns normally. -/
structure SubState (Y R E : Type) where
  cb : AsyncEvent Y R E → Option E
  pos : Nat
  seen : List (AsyncEvent Y R E)

/-- An entry of the shared waiters array: either a subscriber's flush
closure, or a resolve function parked by a suspended iterator (resolving a
promise never throws). -/
inductive Waiter where
  | flush : Nat → Waiter
  | resume : Nat → Waiter
deriving DecidableEq, Repr

/-- Whole-channel state: the shared events array, the shared waiters array,
the subscriber closures (keyed by an id), the result promise (none while
pending; a promise settles at most once), and a history of every waiter
invocation made by push, in order (for stating the broadcast-wake facts). -/
structure ChanState (Y R E : Type) where
  events : List (AsyncEvent Y R E)
  waiters : List Waiter
  subs : List (Nat × SubState Y R E)
  outcome : Option (Except E R)
  wokenLog : List Waiter

/-- Fresh channel: empty log, no waiters, no subscribers, pending promise. -/
def initChan (Y R E : Type) : ChanState Y R E :=
  ⟨[], [], [], none, []⟩

/-- A promise settles at most once: resolve/reject on an already-settled
promise is a no-op. -/
def settle : Option (Except E R) → Except E R → Option (Except E R)
  | some o, _ => some o
  | none, x => some x

/-- The body of flush (source.ts lines 24-29):

    while (position < events.length) { callback(events[position]!); position++; }

applied to the remaining events (events.drop pos).  If the callback throws,
position is not incremented for that event and the exception propagates out
of flush; the callback has still been invoked with the event. -/
def flushRun (cb : AsyncEvent Y R E → Option E) :
    List (AsyncEvent Y R E) → Nat → List (AsyncEvent Y R E) →
    Nat × List (AsyncEvent Y R E) × Option E
  | [], pos, seen => (pos, seen, none)
  | e :: rest, pos, seen =>
      match cb e with
      | some err => (pos, seen ++ [e], some err)
      | none => flushRun cb rest (pos + 1) (seen ++ [e])

/-- Run one subscriber's flush against the current events array. -/
def flushSub (events : List (AsyncEvent Y R E)) (s : SubState Y R E) :
    SubState Y R E × Option E :=
  let r := flushRun s.cb (events.drop s.pos) s.pos s.seen
  (⟨s.cb, r.1, r.2.1⟩, r.2.2)

/-- Replace the stored state of subscriber id. -/
def updateSub (subs : List (Nat × SubState Y R E)) (id : Nat) (s : SubState Y R E) :
    List (Nat × SubState Y R E) :=
  subs.map fun p => if p.1 = id then (id, s) else p

/-- Result of the waiter loop in push: updated subscriber states, the
waiters actually invoked (in order), and the first exception thrown by a
waiter, if any. -/
structure PushOut (Y R E : Type) where
  subs : List (Nat × SubState Y R E)
  woken : List Waiter
  thrown : Option E

/-- The waiter loop shared by both push implementations:

    for (const waiter of waiters.splice(0)) { waiter(); }

Waiters are invoked in array order; when one throws, the loop stops and the
remaining spliced-out waiters are not invoked (they are already removed
from the waiters array, so they are lost).  A resume waiter is a promise
resolve and never throws; a flush waiter re-runs the subscriber's flush
against the current events array. -/
def runWaiters (events : List (AsyncEvent Y R E)) :
    List Waiter → List (Nat × SubState Y R E) → PushOut Y R E
  | [], subs => ⟨subs, [], none⟩
  | w :: ws, subs =>
      match w with
      | .resume i =>
          let out := runWaiters events ws subs
          ⟨out.subs, .resume i :: out.woken, out.thrown⟩
      | .flush id =>
          match (subs.lookup id) with
          | none =>
              let out := runWaiters events ws subs
              ⟨out.subs, .flush id :: out.woken, out.thrown⟩
          | some s =>
              let fr := flushSub events s
              let subs2 := updateSub subs id fr.1
              match fr.2 with
              | some err => ⟨subs2, [.flush id], some err⟩
              | none =>
                  let out := runWaiters events ws subs2
                  ⟨out.subs, .flush id :: out.woken, out.thrown⟩

/-- The switch at the end of push: a return event resolves the result
promise, a throw event rejects it, a yield event leaves it alone. -/
def applySwitch (st : ChanState Y R E) : AsyncEvent Y R E → ChanState Y R E
  | .returnEv v => { st with outcome := settle st.outcome (Except.ok v) }
  | .throwEv e => { st with outcome := settle st.outcome (Except.error e) }
  | .yieldEv _ => st

/-- What a push does to the result promise, as a function of the event,
when no waiter throws. -/
def eventOutcome (old : Option (Except E R)) : AsyncEvent Y R E → Option (Except E R)
  | .returnEv v => settle old (Except.ok v)
  | .throwEv e => settle old (Except.error e)
  | .yieldEv _ => old

/-- Common first half of both push implementations: append the event,
splice the waiters array and run the spliced waiters. -/
def pushBase (st : ChanState Y R E) (ev : AsyncEvent Y R E) :
    ChanState Y R E × Option E :=
  let events2 := st.events ++ [ev]
  let out := runWaiters events2 st.waiters st.subs
  (⟨events2, [], out.subs, st.outcome, st.wokenLog ++ out.woken⟩, out.thrown)

/-- push of createAsyncChannel (create.ts lines 41-65).  The waiter loop is
wrapped in try/catch with ignore_err = (event.type === 'return'): a caught
exception on a non-return event rejects the result promise with that
exception and returns before the switch; on a return event the exception is
swallowed and the switch still runs. -/
def chPush (st : ChanState Y R E) (ev : AsyncEvent Y R E) : ChanState Y R E :=
  let b := pushBase st ev
  match b.2 with
  | some err =>
      if isReturnEv ev then
        applySwitch b.1 ev
      else
        { b.1 with outcome := settle b.1.outcome (Except.error err) }
  | none => applySwitch b.1 ev

/-- chPush viewed at the producer boundary: the codomain records whether an
exception escapes to the caller of next/complete/error.  Because the waiter
loop is inside try/catch, every branch produces Except.ok. -/
def chPushE (st : ChanState Y R E) (ev : AsyncEvent Y R E) :
    Except E (ChanState Y R E) :=
  let b := pushBase st ev
  match b.2 with
  | some err =>
      if isReturnEv ev then
        Except.ok (applySwitch b.1 ev)
      else
        Except.ok { b.1 with outcome := settle b.1.outcome (Except.error err) }
  | none => Except.ok (applySwitch b.1 ev)

/-- push of createGeneratorController (controller.ts lines 62-77): same
body but with no try/catch; an exception thrown by a waiter escapes to the
producer (Except.error).  State mutated before the throw persists. -/
def gcPush (st : ChanState Y R E) (ev : AsyncEvent Y R E) :
    Except E (ChanState Y R E) :=
  let b := pushBase st ev
  match b.2 with
  | some err => Except.error err
  | none => Except.ok (applySwitch b.1 ev)

/-- subscribe (source.ts lines 21-33): position starts at 0; flush() runs
immediately and synchronously; only if that initial flush returns normally is the
flush closure pushed onto the waiters array (if the initial flush throws,
the exception propagates to the caller of subscribe and the closure is
never registered).  The returned Option E is the exception surfaced to the
subscribe caller. -/
def chSubscribe (st : ChanState Y R E) (id : Nat)
    (cb : AsyncEvent Y R E → Option E) : ChanState Y R E × Option E :=
  let fr := flushSub st.events ⟨cb, 0, []⟩
  match fr.2 with
  | some err => ({ st with subs := st.subs ++ [(id, fr.1)] }, some err)
  | none =>
      ({ st with
          subs := st.subs ++ [(id, fr.1)],
          waiters := st.waiters ++ [.flush id] }, none)

/-! ## API call sequences -/

/-- One sink call (AsyncSink surface: next / complete / error). -/
inductive SinkCall (Y R E : Type) where
  | next : Y → SinkCall Y R E
  | complete : R → SinkCall Y R E
  | error : E → SinkCall Y R E

/-- The event each sink call pushes (create.ts lines 70-75). -/
def toEvent : SinkCall Y R E → AsyncEvent Y R E
  | .next v => .yieldEv v
  | .complete v => .returnEv v
  | .error e => .throwEv e

/-- A terminal sink call (complete or error). -/
def isTerminalCall : SinkCall Y R E → Bool
  | .next _ => false
  | .complete _ => true
  | .error _ => true

/-- The outcome a terminal sink call settles the result promise with. -/
def callOutcome : SinkCall Y R E → Option (Except E R)
  | .next _ => none
  | .complete v => some (Except.ok v)
  | .error e => some (Except.error e)

/-- One observable API call on a channel: a sink call, a subscribe call
(with the callback's throw behaviour), or an iterator parking its resolve
in the waiters array (the await in the iterator body). -/
inductive ChanOp (Y R E : Type) where
  | sink : SinkCall Y R E → ChanOp Y R E
  | subscribe : Nat → (AsyncEvent Y R E → Option E) → ChanOp Y R E
  | park : Nat → ChanOp Y R E

/-- Apply one API call to the channel state. -/
def applyOp (st : ChanState Y R E) : ChanOp Y R E → ChanState Y R E
  | .sink c => chPush st (toEvent c)
  | .subscribe id cb => (chSubscribe st id cb).1
  | .park i => { st with waiters := st.waiters ++ [.resume i] }

/-- Run a sequence of API calls from a state. -/
def runOps : ChanState Y R E → List (ChanOp Y R E) → ChanState Y R E
  | st, [] => st
  | st, op :: rest => runOps (applyOp st op) rest

/-- Run a sequence of sink calls from a state. -/
def runSink (st : ChanState Y R E) (cs : List (SinkCall Y R E)) : ChanState Y R E :=
  runOps st (cs.map .sink)

/-- The events a subscriber's callback has been invoked with, in order. -/
def subSeen (st : ChanState Y R E) (id : Nat) : List (AsyncEvent Y R E) :=
  match st.subs.lookup id with
  | some s => s.seen
  | none => []

/-! ## Convenience adapter (toAsyncGenerator, controller.ts lines 134-145)

toAsyncGenerator is declared async function*: in JavaScript, calling an
async generator function allocates the generator object but does not run
any of its body; the body starts executing when the consumer first calls
next() on the returned generator.  The body then builds a fresh controller,
calls handleController(controller) directly (synchronously, relative to the
body), routes a synchronous throw of the executor to controller.fail, and
forwards the controller's entries and result. -/

/-- The observable synchronous behaviour of an executor passed to
toAsyncGenerator: the sink calls it makes, in order, before returning, and
the value it throws before returning (none when it returns normally). -/
structure Executor (Y R E : Type) where
  calls : List (SinkCall Y R E)
  thrown : Option E

/-- The event log of the controller built by the body of toAsyncGenerator,
once the body has run: the executor's sink calls are applied in order, and
if the executor threw, the caught value is passed to controller.fail (which
pushes a throw event). -/
def toAsyncGeneratorLog (ex : Executor Y R E) : List (AsyncEvent Y R E) :=
  match ex.thrown with
  | some err => (chPush (runSink (initChan Y R E) ex.calls) (.throwEv err)).events
  | none => (runSink (initChan Y R E) ex.calls).events

/-- Lifecycle of the generator object returned by toAsyncGenerator:
unstarted (body not yet run, executor not yet invoked) or started (body
ran: the log holds the executor's events and the cursor is at a position). -/
inductive GenState (Y R E : Type) where
  | unstarted : Executor Y R E → GenState Y R E
  | started : List (AsyncEvent Y R E) → Nat → GenState Y R E

/-- Calling toAsyncGenerator(handleController): per async-generator
semantics this only allocates the generator; no body code runs. -/
def toAsyncGeneratorCall (ex : Executor Y R E) : GenState Y R E :=
  .unstarted ex

/-- Whether handleController has been invoked (observable through any side
effect of the executor). -/
def executorInvoked : GenState Y R E → Bool
  | .unstarted _ => false
  | .started _ _ => true

/-- The first next() call on the generator starts the body: the controller
is constructed, the executor is invoked and all its synchronous sink calls
(and the routed throw, if any) are applied to the log before the cursor
reads anything; the cursor starts at position 0. -/
def genStart : GenState Y R E → GenState Y R E
  | .unstarted ex => .started (toAsyncGeneratorLog ex) 0
  | s => s

/-! ## Concrete scenarios -/

/-- A subscriber callback that always returns normally. -/
def cbOk : AsyncEvent Nat Nat Nat → Option Nat := fun _ => none

/-- A subscriber callback that throws 99 on every invocation. -/
def cbThrow99 : AsyncEvent Nat Nat Nat → Option Nat := fun _ => some 99

/-- A channel holding a registered subscriber whose callback always throws,
followed by one suspended iterator: waiters = [flush 0, resume 1]. -/
def stThrowingSub : ChanState Nat Nat Nat :=
  runOps (initChan Nat Nat Nat) [ChanOp.subscribe 0 cbThrow99, ChanOp.park 1]

/-! ## Lemmas about the iterator semantics -/

theorem iterate_append_of_isSome (xs ys : List (AsyncEvent Y R E))
    (h : (iterate xs).2.isSome = true) : iterate (xs ++ ys) = iterate xs := by
  induction xs with
  | nil => simp [iterate] at h
  | cons e rest ih =>
      cases e with
      | yieldEv v =>
          have h2 : (iterate rest).2.isSome = true := by
            simpa [iterate] using h
          simp [iterate, ih h2]
      | returnEv v => simp [iterate]
      | throwEv err => simp [iterate]

theorem iterate_append_of_none (xs ys : List (AsyncEvent Y R E))
    (h : (iterate xs).2 = none) :
    iterate (xs ++ ys) = ((iterate xs).1 ++ (iterate ys).1, (iterate ys).2) := by
  induction xs with
  | nil => simp [iterate]
  | cons e rest ih =>
      cases e with
      | yieldEv v =>
          have h2 : (iterate rest).2 = none := by
            simpa [iterate] using h
          simp [iterate, ih h2]
      | returnEv v => simp [iterate] at h
      | throwEv err => simp [iterate] at h

theorem consumeBatches_eq_iterate_flatten (bs : List (List (AsyncEvent Y R E))) :
    consumeBatches bs = iterate bs.flatten := by
  induction bs with
  | nil => simp [consumeBatches, iterate]
  | cons b rest ih =>
      rw [List.flatten_cons]
      rcases hb : iterate b with ⟨ys, o⟩
      cases o with
      | some o =>
          rw [iterate_append_of_isSome b rest.flatten (by simp [hb])]
          simp [consumeBatches, hb]
      | none =>
          rw [iterate_append_of_none b rest.flatten (by simp [hb])]
          simp [consumeBatches, hb, ih]

theorem iterate_terminal_head (e : AsyncEvent Y R E) (l : List (AsyncEvent Y R E))
    (h : isTerminalEv e = true) : iterate (e :: l) = iterate [e] := by
  cases e with
  | yieldEv v => simp [isTerminalEv] at h
  | returnEv v => simp [iterate]
  | throwEv err => simp [iterate]

theorem iterate_none_of_no_terminal (xs : List (AsyncEvent Y R E))
    (h : ∀ e ∈ xs, isTerminalEv e = false) : (iterate xs).2 = none := by
  induction xs with
  | nil => simp [iterate]
  | cons e rest ih =>
      cases e with
      | yieldEv v =>
          simp only [iterate]
          exact ih fun x hx => h x (List.mem_cons_of_mem _ hx)
      | returnEv v =>
          have := h (.returnEv v) (List.mem_cons_self _ _)
          simp [isTerminalEv] at this
      | throwEv err =>
          have := h (.throwEv err) (List.mem_cons_self _ _)
          simp [isTerminalEv] at this

/-! ## Lemmas about the channel state machine -/

theorem applySwitch_events (st : ChanState Y R E) (ev : AsyncEvent Y R E) :
    (applySwitch st ev).events = st.events := by
  cases ev <;> rfl

theorem applySwitch_waiters (st : ChanState Y R E) (ev : AsyncEvent Y R E) :
    (applySwitch st ev).waiters = st.waiters := by
  cases ev <;> rfl

theorem applySwitch_subs (st : ChanState Y R E) (ev : AsyncEvent Y R E) :
    (applySwitch st ev).subs = st.subs := by
  cases ev <;> rfl

theorem applySwitch_wokenLog (st : ChanState Y R E) (ev : AsyncEvent Y R E) :
    (applySwitch st ev).wokenLog = st.wokenLog := by
  cases ev <;> rfl

theorem applySwitch_outcome (st : ChanState Y R E) (ev : AsyncEvent Y R E) :
    (applySwitch st ev).outcome = eventOutcome st.outcome ev := by
  cases ev <;> rfl

theorem chPush_events (st : ChanState Y R E) (ev : AsyncEvent Y R E) :
    (chPush st ev).events = st.events ++ [ev] := by
  simp only [chPush, pushBase]
  split
  · split
    · rw [applySwitch_events]
    · rfl
  · rw [applySwitch_events]

theorem chPush_waiters (st : ChanState Y R E) (ev : AsyncEvent Y R E) :
    (chPush st ev).waiters = [] := by
  simp only [chPush, pushBase]
  split
  · split
    · rw [applySwitch_waiters]
    · rfl
  · rw [applySwitch_waiters]

theorem chPush_outcome_of_some (st : ChanState Y R E) (ev : AsyncEvent Y R E)
    (o : Except E R) (h : st.outcome = some o) : (chPush st ev).outcome = some o := by
  simp only [chPush, pushBase]
  split
  · split
    · rw [applySwitch_outcome]
      cases ev <;> simp [eventOutcome, settle, h]
    · simp [settle, h]
  · rw [applySwitch_outcome]
    cases ev <;> simp [eventOutcome, settle, h]

theorem runWaiters_woken_of_thrown_none (evs : List (AsyncEvent Y R E))
    (ws : List Waiter) (subs : List (Nat × SubState Y R E))
    (h : (runWaiters evs ws subs).thrown = none) :
    (runWaiters evs ws subs).woken = ws := by
  induction ws generalizing subs with
  | nil => rfl
  | cons w rest ih =>
      cases w with
      | resume i =>
          simp only [runWaiters] at h ⊢
          rw [ih _ h]
      | flush id =>
          cases hl : subs.lookup id with
          | none =>
              simp only [runWaiters, hl] at h ⊢
              rw [ih _ h]
          | some s =>
              cases hf : (flushSub evs s).2 with
              | some err => simp [runWaiters, hl, hf] at h
              | none =>
                  simp only [runWaiters, hl, hf] at h ⊢
                  rw [ih _ h]

theorem runWaiters_woken_take (evs : List (AsyncEvent Y R E))
    (ws : List Waiter) (subs : List (Nat × SubState Y R E)) :
    ∃ k, (runWaiters evs ws subs).woken = ws.take k := by
  induction ws generalizing subs with
  | nil => exact ⟨0, rfl⟩
  | cons w rest ih =>
      cases w with
      | resume i =>
          obtain ⟨k, hk⟩ := ih subs
          exact ⟨k + 1, by simp [runWaiters, hk]⟩
      | flush id =>
          cases hl : subs.lookup id with
          | none =>
              obtain ⟨k, hk⟩ := ih subs
              exact ⟨k + 1, by simp [runWaiters, hl, hk]⟩
          | some s =>
              cases hf : (flushSub evs s).2 with
              | some err => exact ⟨1, by simp [runWaiters, hl, hf]⟩
              | none =>
                  obtain ⟨k, hk⟩ := ih (updateSub subs id (flushSub evs s).1)
                  exact ⟨k + 1, by simp [runWaiters, hl, hf, hk]⟩

theorem runWaiters_resume_only (evs : List (AsyncEvent Y R E))
    (ws : List Waiter) (subs : List (Nat × SubState Y R E))
    (h : ∀ w ∈ ws, ∃ i, w = Waiter.resume i) :
    runWaiters evs ws subs = ⟨subs, ws, none⟩ := by
  induction ws generalizing subs with
  | nil => rfl
  | cons w rest ih =>
      obtain ⟨i, hi⟩ := h w (List.mem_cons_self _ _)
      subst hi
      have := ih subs fun x hx => h x (List.mem_cons_of_mem _ hx)
      simp [runWaiters, this]

theorem runWaiters_nil (evs : List (AsyncEvent Y R E))
    (subs : List (Nat × SubState Y R E)) :
    runWaiters evs [] subs = ⟨subs, [], none⟩ := rfl

/-- A push on a channel with an empty waiters array (in particular, any
channel on which only sink calls have been made): nothing to wake, no
exception, so the result is exactly append-plus-switch. -/
theorem chPush_of_no_waiters (st : ChanState Y R E) (ev : AsyncEvent Y R E)
    (hw : st.waiters = []) :
    chPush st ev =
      { st with events := st.events ++ [ev], outcome := eventOutcome st.outcome ev } := by
  simp only [chPush, pushBase, hw, runWaiters_nil]
  cases st with
  | mk evs ws subs o wl => cases ev <;> simp [applySwitch, eventOutcome, settle]

theorem runOps_append (st : ChanState Y R E) (a b : List (ChanOp Y R E)) :
    runOps st (a ++ b) = runOps (runOps st a) b := by
  induction a generalizing st with
  | nil => rfl
  | cons op rest ih => simp [runOps, ih]

theorem runSink_cons (st : ChanState Y R E) (c : SinkCall Y R E)
    (cs : List (SinkCall Y R E)) :
    runSink st (c :: cs) = runSink (chPush st (toEvent c)) cs := rfl

theorem runSink_append (st : ChanState Y R E) (a b : List (SinkCall Y R E)) :
    runSink st (a ++ b) = runSink (runSink st a) b := by
  simp [runSink, runOps_append]

theorem runSink_events (cs : List (SinkCall Y R E)) (st : ChanState Y R E) :
    (runSink st cs).events = st.events ++ cs.map toEvent := by
  induction cs generalizing st with
  | nil => simp [runSink, runOps]
  | cons c rest ih =>
      rw [runSink_cons, ih, chPush_events]
      simp

theorem runSink_waiters (cs : List (SinkCall Y R E)) (st : ChanState Y R E)
    (hw : st.waiters = []) : (runSink st cs).waiters = [] := by
  induction cs generalizing st with
  | nil => exact hw
  | cons c rest ih =>
      rw [runSink_cons]
      exact ih _ (chPush_waiters st _)

/-- One push preserves the invariant that the result promise mirrors the
terminal outcome an iterator reaches on the current log. -/
theorem chPush_outcome_iterate (st : ChanState Y R E) (ev : AsyncEvent Y R E)
    (hw : st.waiters = []) (ho : st.outcome = (iterate st.events).2) :
    (chPush st ev).outcome = (iterate (chPush st ev).events).2 := by
  rw [chPush_of_no_waiters st ev hw]
  dsimp only
  cases hoo : (iterate st.events).2 with
  | some o =>
      rw [iterate_append_of_isSome st.events [ev] (by simp [hoo])]
      rw [hoo]
      cases ev <;> simp [eventOutcome, settle, ho, hoo]
  | none =>
      rw [iterate_append_of_none st.events [ev] hoo]
      cases ev <;> simp [eventOutcome, settle, iterate, ho, hoo]

theorem runSink_outcome_iterate (cs : List (SinkCall Y R E)) (st : ChanState Y R E)
    (hw : st.waiters = []) (ho : st.outcome = (iterate st.events).2) :
    (runSink st cs).outcome = (iterate (runSink st cs).events).2 := by
  induction cs generalizing st with
  | nil => exact ho
  | cons c rest ih =>
      rw [runSink_cons]
      exact ih _ (chPush_waiters st _) (chPush_outcome_iterate st _ hw ho)

/-- The result promise of a sink-only run from a fresh channel equals the
terminal outcome of iterating the final log. -/
theorem runSink_init_outcome (cs : List (SinkCall Y R E)) :
    (runSink (initChan Y R E) cs).outcome
      = (iterate (runSink (initChan Y R E) cs).events).2 :=
  runSink_outcome_iterate cs _ rfl rfl

theorem applyOp_outcome_of_some (st : ChanState Y R E) (op : ChanOp Y R E)
    (o : Except E R) (h : st.outcome = some o) : (applyOp st op).outcome = some o := by
  cases op with
  | sink c => exact chPush_outcome_of_some st _ o h
  | subscribe id cb =>
      cases hf : (flushSub st.events ⟨cb, 0, []⟩).2 with
      | some err => simp [applyOp, chSubscribe, hf, h]
      | none => simp [applyOp, chSubscribe, hf, h]
  | park i => exact h

/-- The promise settles at most once: once the outcome is settled, no later
API call changes it. -/
theorem runOps_outcome_of_some (ops : List (ChanOp Y R E)) (st : ChanState Y R E)
    (o : Except E R) (h : st.outcome = some o) : (runOps st ops).outcome = some o := by
  induction ops generalizing st with
  | nil => exact h
  | cons op rest ih => exact ih _ (applyOp_outcome_of_some st op o h)

theorem chPush_wokenLog (st : ChanState Y R E) (ev : AsyncEvent Y R E) :
    (chPush st ev).wokenLog
      = st.wokenLog ++ (runWaiters (st.events ++ [ev]) st.waiters st.subs).woken := by
  simp only [chPush, pushBase]
  split
  · split
    · rw [applySwitch_wokenLog]
    · rfl
  · rw [applySwitch_wokenLog]

theorem isTerminalEv_toEvent (c : SinkCall Y R E) :
    isTerminalEv (toEvent c) = isTerminalCall c := by
  cases c <;> rfl

theorem runSink_init_events (cs : List (SinkCall Y R E)) :
    (runSink (initChan Y R E) cs).events = cs.map toEvent := by
  rw [runSink_events]
  simp [initChan]

/-- A log produced by sink calls ending in a terminal call settles every
iterator: the iteration outcome is some. -/
theorem iterate_sinkLog_isSome (cs : List (SinkCall Y R E)) (t : SinkCall Y R E)
    (ht : isTerminalCall t = true) :
    (iterate ((cs ++ [t]).map toEvent)).2.isSome = true := by
  rw [List.map_append]
  cases hp : (iterate (cs.map toEvent)).2 with
  | some o =>
      rw [iterate_append_of_isSome _ _ (by simp [hp])]
      simp [hp]
  | none =>
      rw [iterate_append_of_none _ _ hp]
      cases t with
      | next v => simp [isTerminalCall] at ht
      | complete v => simp [toEvent, iterate]
      | error e => simp [toEvent, iterate]

/-! ## Claims -/

/-- C1: subscribe(callback) does replay the log synchronously on
subscription (third conjunct), but it does not keep invoking the callback
for every later event for the lifetime of the controller: flush is pushed
into waiters once, push splices the whole waiters array, and flush is never
re-registered, so after the first post-subscription append the subscriber
is dropped.  Here the callback is invoked for the yield of 1 but never for
the yield of 2, even though both are in the log. -/
theorem c1_subscribe_stops_after_first_wake :
    subSeen (runOps (initChan Nat Nat Nat)
      [ChanOp.subscribe 0 cbOk, ChanOp.sink (SinkCall.next 1),
       ChanOp.sink (SinkCall.next 2)]) 0 = [AsyncEvent.yieldEv 1] ∧
    (runOps (initChan Nat Nat Nat)
      [ChanOp.subscribe 0 cbOk, ChanOp.sink (SinkCall.next 1),
       ChanOp.sink (SinkCall.next 2)]).events
      = [AsyncEvent.yieldEv 1, AsyncEvent.yieldEv 2] ∧
    subSeen (runOps (initChan Nat Nat Nat)
      [ChanOp.sink (SinkCall.next 1), ChanOp.subscribe 0 cbOk]) 0
      = [AsyncEvent.yieldEv 1] := by
  decide

/-- C4: the iterator half of the ordering claim holds (second conjunct: an
iterator over the final log observes 10 then 20 in append order and the
terminal return), but the subscriber half fails: the subscriber is woken
only for the first append after subscribing, so the events yield 20 and
return 0 are dropped from its observed sequence, contradicting the claimed
no-dropping for every consumer. -/
theorem c4_subscriber_drops_appended_events :
    subSeen (runOps (initChan Nat Nat Nat)
      [ChanOp.subscribe 0 cbOk, ChanOp.sink (SinkCall.next 10),
       ChanOp.sink (SinkCall.next 20), ChanOp.sink (SinkCall.complete 0)]) 0
      = [AsyncEvent.yieldEv 10] ∧
    iterate (runOps (initChan Nat Nat Nat)
      [ChanOp.subscribe 0 cbOk, ChanOp.sink (SinkCall.next 10),
       ChanOp.sink (SinkCall.next 20), ChanOp.sink (SinkCall.complete 0)]).events
      = ([10, 20], some (Except.ok 0)) := by
  decide

/-- C3 counterexample: a next(5) made after complete(7) is not a no-op with
respect to consumer-visible state: push appends it to the log with no
terminal guard, and a subscriber's replay delivers it (first conjunct shows
the subscriber observes the yield of 5 after the return event; second shows
that without the post-terminal next the observation differs). -/
theorem c3_counterexample_post_terminal_yield_visible :
    subSeen (runOps (initChan Nat Nat Nat)
      [ChanOp.sink (SinkCall.complete 7), ChanOp.sink (SinkCall.next 5),
       ChanOp.subscribe 0 cbOk]) 0
      = [AsyncEvent.returnEv 7, AsyncEvent.yieldEv 5] ∧
    subSeen (runOps (initChan Nat Nat Nat)
      [ChanOp.sink (SinkCall.complete 7), ChanOp.subscribe 0 cbOk]) 0
      = [AsyncEvent.returnEv 7] := by
  decide

/-- C3 (amended): after a terminal event no further events affect any
iterating consumer's observed sequence (first conjunct: whatever follows a
log whose iteration has settled is invisible to iterate), and post-terminal
sink calls never change the settled result promise (second conjunct);
post-terminal sink calls are however still appended to the log and can be
observed by subscribe-based consumers. -/
theorem c3_amended_terminal_exclusive_for_iterators {Y R E : Type}
    (xs ys : List (AsyncEvent Y R E)) (pre cs2 : List (SinkCall Y R E))
    (t : SinkCall Y R E) (hx : (iterate xs).2.isSome = true)
    (ht : isTerminalCall t = true) :
    iterate (xs ++ ys) = iterate xs ∧
    (runSink (initChan Y R E) (pre ++ t :: cs2)).outcome
      = (runSink (initChan Y R E) (pre ++ [t])).outcome := by
  refine ⟨iterate_append_of_isSome xs ys hx, ?_⟩
  have h1 : (runSink (initChan Y R E) (pre ++ [t])).outcome
      = (iterate ((pre ++ [t]).map toEvent)).2 := by
    rw [runSink_init_outcome, runSink_init_events]
  have h2 : (runSink (initChan Y R E) (pre ++ [t])).outcome.isSome = true := by
    rw [h1]
    exact iterate_sinkLog_isSome pre t ht
  obtain ⟨o, ho⟩ := Option.isSome_iff_exists.mp h2
  have hsplit : pre ++ t :: cs2 = (pre ++ [t]) ++ cs2 := by simp
  rw [hsplit, runSink_append, ho]
  exact runOps_outcome_of_some _ _ o ho

/-- C3 amended witness. -/
theorem c3_amended_witness :
    iterate (([AsyncEvent.returnEv 7] ++ [AsyncEvent.yieldEv 5]) :
        List (AsyncEvent Nat Nat Nat))
      = iterate ([AsyncEvent.returnEv 7] : List (AsyncEvent Nat Nat Nat)) ∧
    (runSink (initChan Nat Nat Nat)
        ([SinkCall.next 1] ++ SinkCall.complete 7 :: [SinkCall.next 5])).outcome
      = (runSink (initChan Nat Nat Nat)
        ([SinkCall.next 1] ++ [SinkCall.complete 7])).outcome :=
  c3_amended_terminal_exclusive_for_iterators
    [AsyncEvent.returnEv 7] [AsyncEvent.yieldEv 5]
    [SinkCall.next 1] [SinkCall.next 5] (SinkCall.complete 7)
    (by decide) (by decide)

/-- C9 counterexample: toAsyncGenerator is an async generator function, so
calling it only allocates the generator object; the executor has not been
invoked when the adapter call returns, contrary to the claim. -/
theorem c9_counterexample_executor_not_yet_invoked :
    executorInvoked (toAsyncGeneratorCall
      (⟨[SinkCall.next 1], none⟩ : Executor Nat Nat Nat)) = false := by
  decide

/-- C9 (amended): the adapter returns with the executor not yet invoked;
the executor is invoked synchronously when the consumer first advances the
generator, and by that point the fresh controller's log already holds all
events from the executor's synchronous sink calls (and its routed throw, if
any), with the consumer's cursor still at position 0 — so the executor runs
before any event is delivered to the consumer. -/
theorem c9_amended_executor_runs_on_first_advance {Y R E : Type}
    (ex : Executor Y R E) :
    executorInvoked (toAsyncGeneratorCall ex) = false ∧
    genStart (toAsyncGeneratorCall ex)
      = GenState.started (toAsyncGeneratorLog ex) 0 ∧
    executorInvoked (genStart (toAsyncGeneratorCall ex)) = true :=
  ⟨rfl, rfl, rfl⟩

/-- C2: for a sink sequence ending in a terminal call, any consumer —
modelled as draining the log in any batch partition, which covers iterators
started before, during, or after production (a late starter's first batch
is everything already logged; simultaneous iterators have independent
cursors over the shared append-only log) — observes exactly the same value
sequence from position 0 and the same terminal outcome: every partition of
the final log denotes the same observation, namely iterate of the full log,
and that observation is settled (isSome). -/
theorem c2_all_consumers_observe_identical_sequence {Y R E : Type}
    (calls : List (SinkCall Y R E)) (t : SinkCall Y R E)
    (p q : List (List (AsyncEvent Y R E)))
    (ht : isTerminalCall t = true)
    (hp : p.flatten = (runSink (initChan Y R E) (calls ++ [t])).events)
    (hq : q.flatten = (runSink (initChan Y R E) (calls ++ [t])).events) :
    consumeBatches p = consumeBatches q ∧
    consumeBatches p
      = iterate (runSink (initChan Y R E) (calls ++ [t])).events ∧
    (consumeBatches p).2.isSome = true := by
  have h1 : consumeBatches p
      = iterate (runSink (initChan Y R E) (calls ++ [t])).events := by
    rw [consumeBatches_eq_iterate_flatten, hp]
  have h2 : consumeBatches q
      = iterate (runSink (initChan Y R E) (calls ++ [t])).events := by
    rw [consumeBatches_eq_iterate_flatten, hq]
  refine ⟨h1.trans h2.symm, h1, ?_⟩
  rw [h1, runSink_init_events]
  exact iterate_sinkLog_isSome calls t ht

/-- C2 witness: one consumer reads the whole log at once, the other in two
batches (woken mid-production); both observe yields 1, 2 and return 0. -/
theorem c2_witness :
    consumeBatches ([[AsyncEvent.yieldEv 1, AsyncEvent.yieldEv 2,
        AsyncEvent.returnEv 0]] : List (List (AsyncEvent Nat Nat Nat)))
      = consumeBatches [[AsyncEvent.yieldEv 1],
          [AsyncEvent.yieldEv 2, AsyncEvent.returnEv 0]] ∧
    consumeBatches ([[AsyncEvent.yieldEv 1, AsyncEvent.yieldEv 2,
        AsyncEvent.returnEv 0]] : List (List (AsyncEvent Nat Nat Nat)))
      = iterate (runSink (initChan Nat Nat Nat)
          ([SinkCall.next 1, SinkCall.next 2] ++ [SinkCall.complete 0])).events ∧
    (consumeBatches ([[AsyncEvent.yieldEv 1, AsyncEvent.yieldEv 2,
        AsyncEvent.returnEv 0]] : List (List (AsyncEvent Nat Nat Nat)))).2.isSome
      = true :=
  c2_all_consumers_observe_identical_sequence
    [SinkCall.next 1, SinkCall.next 2] (SinkCall.complete 0)
    [[AsyncEvent.yieldEv 1, AsyncEvent.yieldEv 2, AsyncEvent.returnEv 0]]
    [[AsyncEvent.yieldEv 1], [AsyncEvent.yieldEv 2, AsyncEvent.returnEv 0]]
    (by decide) (by decide) (by decide)

/-- C5: for every sink sequence the result promise equals the terminal
outcome of a full iteration of the log (first conjunct); the concrete
scenarios: next(1) next(2) complete("done") iterates to yields 1, 2 with
return value "done" and the result resolves to "done"; next(1) error(42)
iterates to yield 1 then raises 42 at the second step and the result
rejects with 42. -/
theorem c5_result_matches_iteration {Y R E : Type} (cs : List (SinkCall Y R E)) :
    (runSink (initChan Y R E) cs).outcome
      = (iterate (runSink (initChan Y R E) cs).events).2 ∧
    iterate (runSink (initChan Nat String Nat)
        [SinkCall.next 1, SinkCall.next 2, SinkCall.complete "done"]).events
      = ([1, 2], some (Except.ok "done")) ∧
    (runSink (initChan Nat String Nat)
        [SinkCall.next 1, SinkCall.next 2, SinkCall.complete "done"]).outcome
      = some (Except.ok "done") ∧
    iterate (runSink (initChan Nat Nat Nat)
        [SinkCall.next 1, SinkCall.error 42]).events
      = ([1], some (Except.error 42)) ∧
    (runSink (initChan Nat Nat Nat)
        [SinkCall.next 1, SinkCall.error 42]).outcome
      = some (Except.error 42) :=
  ⟨runSink_init_outcome cs, rfl, rfl, rfl, rfl⟩

/-- C7: a synchronous throw of the executor is routed to the error path:
with no prior sink calls, the first iteration step of the resulting
sequence raises exactly the thrown value (first conjunct), the resulting
log is identical to the one produced by an explicit fail call
(second conjunct), and in general an executor that makes sink calls and
then throws produces the same log as one that instead ends with an
explicit error call — indistinguishable to every consumer (third
conjunct). -/
theorem c7_sync_throw_routed_to_error_path {Y R E : Type} (e : E)
    (cs : List (SinkCall Y R E)) :
    iterate (toAsyncGeneratorLog (⟨[], some e⟩ : Executor Y R E))
      = ([], some (Except.error e)) ∧
    toAsyncGeneratorLog (⟨[], some e⟩ : Executor Y R E)
      = toAsyncGeneratorLog (⟨[SinkCall.error e], none⟩ : Executor Y R E) ∧
    toAsyncGeneratorLog (⟨cs, some e⟩ : Executor Y R E)
      = toAsyncGeneratorLog (⟨cs ++ [SinkCall.error e], none⟩ : Executor Y R E) := by
  refine ⟨rfl, rfl, ?_⟩
  simp only [toAsyncGeneratorLog, runSink_append]
  rw [chPush_events]
  rw [runSink_events [SinkCall.error e] (runSink (initChan Y R E) cs)]
  rfl

/-- C6: every append clears the waiter collection (first conjunct); when no
waiter callback throws during the wake loop, the append wakes all waiters
registered at that moment, in order (second conjunct); and the result
promise is settled at most once with the first terminal event
authoritative: in a sink sequence whose first terminal call is t, the
outcome is t's payload no matter how many terminal calls follow (third
conjunct). -/
theorem c6_broadcast_wake_and_first_terminal_wins {Y R E : Type}
    (st : ChanState Y R E) (ev : AsyncEvent Y R E)
    (cs1 cs2 : List (SinkCall Y R E)) (t : SinkCall Y R E)
    (hthrow : (runWaiters (st.events ++ [ev]) st.waiters st.subs).thrown = none)
    (h1 : ∀ c ∈ cs1, isTerminalCall c = false)
    (ht : isTerminalCall t = true) :
    (chPush st ev).waiters = [] ∧
    (chPush st ev).wokenLog = st.wokenLog ++ st.waiters ∧
    (runSink (initChan Y R E) (cs1 ++ t :: cs2)).outcome = callOutcome t := by
  refine ⟨chPush_waiters st ev, ?_, ?_⟩
  · rw [chPush_wokenLog, runWaiters_woken_of_thrown_none _ _ _ hthrow]
  · rw [runSink_init_outcome, runSink_init_events, List.map_append]
    have hnone : (iterate (cs1.map toEvent)).2 = none := by
      apply iterate_none_of_no_terminal
      intro e he
      obtain ⟨c, hc, rfl⟩ := List.mem_map.mp he
      rw [isTerminalEv_toEvent]
      exact h1 c hc
    rw [iterate_append_of_none _ _ hnone]
    cases t with
    | next v => simp [isTerminalCall] at ht
    | complete v => simp [toEvent, iterate, callOutcome]
    | error e2 => simp [toEvent, iterate, callOutcome]

/-- C6 witness: a channel with two parked iterators; an append wakes both
and clears the list; and in next(1) complete(2) error(9) complete(3) the
outcome is the first terminal's payload, ok 2. -/
theorem c6_witness :
    (chPush (runOps (initChan Nat Nat Nat) [ChanOp.park 0, ChanOp.park 1])
        (AsyncEvent.yieldEv 5)).waiters = [] ∧
    (chPush (runOps (initChan Nat Nat Nat) [ChanOp.park 0, ChanOp.park 1])
        (AsyncEvent.yieldEv 5)).wokenLog
      = (runOps (initChan Nat Nat Nat) [ChanOp.park 0, ChanOp.park 1]).wokenLog
        ++ (runOps (initChan Nat Nat Nat) [ChanOp.park 0, ChanOp.park 1]).waiters ∧
    (runSink (initChan Nat Nat Nat)
        ([SinkCall.next 1]
          ++ SinkCall.complete 2 :: [SinkCall.error 9, SinkCall.complete 3])).outcome
      = callOutcome (SinkCall.complete 2 : SinkCall Nat Nat Nat) :=
  c6_broadcast_wake_and_first_terminal_wins
    (runOps (initChan Nat Nat Nat) [ChanOp.park 0, ChanOp.park 1])
    (AsyncEvent.yieldEv 5)
    [SinkCall.next 1] [SinkCall.error 9, SinkCall.complete 3]
    (SinkCall.complete 2) (by decide) (by decide) (by decide)

/-- C8: next never throws to the producer.  For createAsyncChannel the
waiter loop is inside try/catch, so in every state — including states
already holding a terminal event, and states holding a registered
subscriber whose callback throws during the append — next returns normally
(first conjunct).  For createGeneratorController, whose API registers only
promise-resolve waiters in the waiters array (it has no subscribe), the
push without try/catch also returns normally (second conjunct). -/
theorem c8_next_never_throws_to_producer {Y R E : Type}
    (st st2 : ChanState Y R E) (y y2 : Y)
    (h : ∀ w ∈ st2.waiters, ∃ i, w = Waiter.resume i) :
    chPushE st (AsyncEvent.yieldEv y)
      = Except.ok (chPush st (AsyncEvent.yieldEv y)) ∧
    ∃ st3, gcPush st2 (AsyncEvent.yieldEv y2) = Except.ok st3 := by
  constructor
  · simp only [chPushE, chPush]
    split
    · split <;> rfl
    · rfl
  · simp only [gcPush, pushBase]
    rw [runWaiters_resume_only _ _ _ h]
    exact ⟨_, rfl⟩

/-- C8 witness: a channel whose registered subscriber callback throws on
every event still lets next(1) return normally; a controller with one
parked iterator lets next(2) return normally as well. -/
theorem c8_witness :
    chPushE (runOps (initChan Nat Nat Nat) [ChanOp.subscribe 0 cbThrow99])
        (AsyncEvent.yieldEv 1)
      = Except.ok (chPush (runOps (initChan Nat Nat Nat)
          [ChanOp.subscribe 0 cbThrow99]) (AsyncEvent.yieldEv 1)) ∧
    ∃ st3, gcPush (runOps (initChan Nat Nat Nat) [ChanOp.park 0])
        (AsyncEvent.yieldEv 2) = Except.ok st3 :=
  c8_next_never_throws_to_producer
    (runOps (initChan Nat Nat Nat) [ChanOp.subscribe 0 cbThrow99])
    (runOps (initChan Nat Nat Nat) [ChanOp.park 0]) 1 2
    (fun _w hw => ⟨0, List.mem_singleton.mp hw⟩)

/-- C10: in createAsyncChannel's push, an exception thrown by a waiter
during the splice loop is caught: for a yield or throw event (ignore_err
false) the result promise is rejected with that exception and the final
switch is skipped (first conjunct), for a return event it is swallowed and
the promise still resolves with the return value (second conjunct); the
waiters actually invoked form a prefix of the spliced list, so waiters
after the thrower are never invoked (third conjunct); and since the
promise settles once, later sink calls — even a complete — cannot override
the rejection (fourth conjunct).  The closed conjuncts run the scenario on
stThrowingSub, whose waiters are the throwing subscriber's flush and a
parked iterator: pushing yield 1 invokes only the flush, leaves the parked
resume never invoked, rejects the outcome with 99, a later complete(5)
leaves it rejected, while pushing return 5 instead resolves it with 5. -/
theorem c10_waiter_exception_semantics {Y R E : Type}
    (st : ChanState Y R E) (ev : AsyncEvent Y R E) (err : E)
    (h : (runWaiters (st.events ++ [ev]) st.waiters st.subs).thrown = some err) :
    (isReturnEv ev = false →
      (chPush st ev).outcome = settle st.outcome (Except.error err)) ∧
    (∀ r, ev = AsyncEvent.returnEv r →
      (chPush st ev).outcome = settle st.outcome (Except.ok r)) ∧
    (∃ k, (runWaiters (st.events ++ [ev]) st.waiters st.subs).woken
        = st.waiters.take k) ∧
    (isReturnEv ev = false → ∀ cs : List (SinkCall Y R E),
      (runSink (chPush st ev) cs).outcome
        = settle st.outcome (Except.error err)) ∧
    stThrowingSub.waiters = [Waiter.flush 0, Waiter.resume 1] ∧
    (chPush stThrowingSub (AsyncEvent.yieldEv 1)).wokenLog = [Waiter.flush 0] ∧
    (chPush stThrowingSub (AsyncEvent.yieldEv 1)).outcome
      = some (Except.error 99) ∧
    (runSink (chPush stThrowingSub (AsyncEvent.yieldEv 1))
        [SinkCall.complete 5]).outcome = some (Except.error 99) ∧
    (chPush stThrowingSub (AsyncEvent.returnEv 5)).outcome
      = some (Except.ok 5) := by
  have hb2 : (pushBase st ev).2 = some err := h
  have hout : isReturnEv ev = false →
      (chPush st ev).outcome = settle st.outcome (Except.error err) := by
    intro hev
    simp only [chPush, hb2, hev]
    simp [pushBase]
  refine ⟨hout, ?_, runWaiters_woken_take _ _ _, ?_, ?_, ?_, ?_, ?_, ?_⟩
  · intro r hr
    subst hr
    simp only [chPush, hb2, isReturnEv, if_true]
    simp [applySwitch, pushBase]
  · intro hev cs
    have hsome : ∃ o, settle st.outcome (Except.error err) = some o := by
      cases st.outcome <;> exact ⟨_, rfl⟩
    obtain ⟨o, ho⟩ := hsome
    calc (runSink (chPush st ev) cs).outcome
        = some o := runOps_outcome_of_some _ _ o ((hout hev).trans ho)
      _ = settle st.outcome (Except.error err) := ho.symm
  · decide
  · decide
  · decide
  · decide
  · decide

/-- C10 witness: the scenario state with the throwing subscriber and a
parked iterator, appending yield 1, whose wake loop throws 99. -/
theorem c10_witness :
    ((isReturnEv (AsyncEvent.yieldEv 1 : AsyncEvent Nat Nat Nat) = false →
      (chPush stThrowingSub (AsyncEvent.yieldEv 1)).outcome
        = settle stThrowingSub.outcome (Except.error 99)) ∧
    (∀ r, (AsyncEvent.yieldEv 1 : AsyncEvent Nat Nat Nat) = AsyncEvent.returnEv r →
      (chPush stThrowingSub (AsyncEvent.yieldEv 1)).outcome
        = settle stThrowingSub.outcome (Except.ok r)) ∧
    (∃ k, (runWaiters (stThrowingSub.events ++ [AsyncEvent.yieldEv 1])
        stThrowingSub.waiters stThrowingSub.subs).woken
        = stThrowingSub.waiters.take k) ∧
    (isReturnEv (AsyncEvent.yieldEv 1 : AsyncEvent Nat Nat Nat) = false →
      ∀ cs : List (SinkCall Nat Nat Nat),
      (runSink (chPush stThrowingSub (AsyncEvent.yieldEv 1)) cs).outcome
        = settle stThrowingSub.outcome (Except.error 99)) ∧
    stThrowingSub.waiters = [Waiter.flush 0, Waiter.resume 1] ∧
    (chPush stThrowingSub (AsyncEvent.yieldEv 1)).wokenLog = [Waiter.flush 0] ∧
    (chPush stThrowingSub (AsyncEvent.yieldEv 1)).outcome
      = some (Except.error 99) ∧
    (runSink (chPush stThrowingSub (AsyncEvent.yieldEv 1))
        [SinkCall.complete 5]).outcome = some (Except.error 99) ∧
    (chPush stThrowingSub (AsyncEvent.returnEv 5)).outcome
      = some (Except.ok 5)) :=
  c10_waiter_exception_semantics stThrowingSub (AsyncEvent.yieldEv 1) 99
    (by decide)

end Tooltool
